import Mathlib

/-!
Verification of the opentelemetry-collector configuration providers
(`confmap/provider/httpprovider`, `confmap/provider/httpsprovider`,
`confmap/provider/s3provider`).

The development shallowly embeds the Go sources:

* `goSplit` models `strings.Split` (for non-empty separators, the only
  way the sources call it);
* `goHasPrefix` models `strings.HasPrefix`;
* `goQuote` models the `%q` verb of `fmt.Errorf` (exact Go quoting for
  printable ASCII; the escape encoding of non-printable characters is
  abbreviated, and every theorem that depends on quoting restricts the
  quoted string to plain printable characters);
* `s3provider.S3URISplit` is a direct translation of `S3URISplit` from
  `confmap/provider/s3provider/provider.go`;
* each provider's `Retrieve` is a direct translation of the corresponding
  Go `Retrieve`, with the external collaborators (HTTP transport, file
  system, certificate pools, the AWS SDK, and the YAML decoder
  `internal.NewRetrievedFromYAML`) supplied as an explicit environment.
  Go returns a pair `(confmap.Retrieved{}, err)`; the embedding returns
  `Except String V` (the error message on the error path, in which Go's
  value component is the zero value) together with a trace of the
  transport operations that were performed, so that "no network I/O was
  attempted" is expressible as an empty trace.
-/

namespace OtelConf

/-- Models `strings.HasPrefix s pre` from the Go standard library. -/
def goHasPrefix (s pre : String) : Bool :=
  pre.data.isPrefixOf s.data

/-- A printable ASCII character that `%q` renders as itself (no escape). -/
def plainChar (c : Char) : Bool :=
  decide (0x20 ≤ c.toNat) && decide (c.toNat ≤ 0x7e) && !(c = '"') && !(c = '\\')

/-- Every character of the string is rendered by `%q` as itself. -/
def plainString (s : String) : Bool :=
  s.data.all plainChar

/-- How Go `strconv` quoting renders one character.  Printable ASCII is kept,
`"` and `\` are backslash-escaped; the encoding of the remaining (escaped)
characters is abbreviated to `\x` followed by hex digits. -/
def goEscapeChar (c : Char) : List Char :=
  if c = '"' then ['\\', '"']
  else if c = '\\' then ['\\', '\\']
  else if 0x20 ≤ c.toNat ∧ c.toNat ≤ 0x7e then [c]
  else '\\' :: 'x' :: Nat.toDigits 16 c.toNat

/-- Models the `%q` verb of `fmt.Errorf`: the argument surrounded by double
quotes, with escaping applied characterwise. -/
def goQuote (s : String) : String :=
  String.mk ('"' :: (s.data.flatMap goEscapeChar) ++ ['"'])

/-- Whether `pat` occurs contiguously inside `l`. -/
def listIsInfixOf (pat : List Char) : List Char → Bool
  | [] => pat.isEmpty
  | _c :: rest => pat.isPrefixOf (_c :: rest) || listIsInfixOf pat rest

/-- Whether the string `pat` occurs contiguously inside `s`. -/
def strContains (s pat : String) : Bool :=
  listIsInfixOf pat.data s.data

/-- Fuelled splitter underlying `goSplit`: splits `l` at every
non-overlapping, left-to-right occurrence of the separator `s0 :: s'`.
The fuel only serves to make the recursion structural; `l.length` fuel is
always enough because every step consumes at least one character. -/
def splitOnFuel (s0 : Char) (s' : List Char) : Nat → List Char → List (List Char)
  | _, [] => [[]]
  | 0, l => [l]
  | fuel + 1, c :: rest =>
    if (s0 :: s').isPrefixOf (c :: rest) then
      [] :: splitOnFuel s0 s' fuel (rest.drop s'.length)
    else
      match splitOnFuel s0 s' fuel rest with
      | [] => [[c]]
      | h :: t => (c :: h) :: t

/-- Splitting at every occurrence of the non-empty separator `s0 :: s'`. -/
def splitOnL (s0 : Char) (s' : List Char) (l : List Char) : List (List Char) :=
  splitOnFuel s0 s' l.length l

/-- Models `strings.Split s sep` from the Go standard library, for the
non-empty separators the sources use.  (Go splits an empty separator into
single characters; the sources never pass one, so that case is collapsed.) -/
def goSplit (s sep : String) : List String :=
  match sep.data with
  | [] => [s]
  | s0 :: s' => (splitOnL s0 s' s.data).map (fun l => String.mk l)

/-- Models an `*http.Response` after the transport returned it: the status
code, and the outcome of `ioutil.ReadAll` on its body. -/
structure HttpResponse (B : Type) where
  statusCode : Nat
  readBody : Except String B

/-- `fmt.Errorf("%q uri is not supported by %q provider", uri, schemeName)`. -/
def unsupportedMsg (scheme uri : String) : String :=
  goQuote uri ++ " uri is not supported by " ++ goQuote scheme ++ " provider"

namespace s3provider

def schemeName : String := "s3"

def stop : String := "."

def colonSlashes : String := "://"

def s3URITail : String := ".amazonaws.com/"

/-- `S3URISplit` from `confmap/provider/s3provider/provider.go`: splits the
s3 uri into `[BUCKET]`, `[REGION]`, `[KEY]`.  (The Go indexing operations
`splitted[2]`, `bucketSplitted[1]`, `keySplitted[1]` all sit behind the
length guards, so they are rendered with `getD`.) -/
def S3URISplit (uri : String) : Except String (String × String × String) :=
  let splitted := goSplit uri stop
  if splitted.length < 5 then .error "invalid s3-uri"
  else
    let region := splitted.getD 2 ""
    let bucketString := splitted.getD 0 ""
    let bucketSplitted := goSplit bucketString colonSlashes
    if bucketSplitted.length < 2 then .error "invalid s3-uri"
    else
      let bucket := bucketSplitted.getD 1 ""
      let keySplitted := goSplit uri s3URITail
      if keySplitted.length < 2 then .error "invalid s3-uri"
      else
        let key := keySplitted.getD 1 ""
        if bucket = "" ∨ region = "" ∨ key = "" then .error "invalid s3-uri"
        else .ok (bucket, region, key)

/-- One transport/SDK operation performed by the s3 provider's `Retrieve`. -/
inductive S3Op where
  | loadConfig (region : String)
  | headObject (bucket key : String)
  | download (bucket key : String)
deriving DecidableEq, Repr

/-- The ambient world of the s3 provider: the two credential environment
variables read by `os.Getenv`, and the AWS SDK collaborators
(`config.LoadDefaultConfig` bound to a region, `client.HeadObject`
returning the content length, `downloader.Download`), plus the external
YAML decoder.  `C` is the SDK config type, `B` the byte-buffer type, `V`
the decoded configuration type. -/
structure Env (C B V : Type) where
  accessKeyID : String
  secretAccessKey : String
  loadDefaultConfig : String → Except String C
  headObject : C → String → String → Except String Nat
  download : C → String → String → Except String B
  newRetrievedFromYAML : B → Except String V

/-- `Retrieve` of the s3 provider (`provider.go`), with the operations it
performs against the SDK recorded in the returned trace. -/
def Retrieve {C B V : Type} (env : Env C B V) (uri : String) :
    Except String V × List S3Op :=
  if !goHasPrefix uri (schemeName ++ ":") then
    (.error (unsupportedMsg schemeName uri), [])
  else if env.accessKeyID = "" ∨ env.secretAccessKey = "" then
    (.error "unable to fetch access keys for S3 Auth", [])
  else
    match S3URISplit uri with
    | .error _ => (.error (goQuote uri ++ " uri is not valid s3-url"), [])
    | .ok (bucket, region, key) =>
      match env.loadDefaultConfig region with
      | .error _ =>
        (.error "AWS SDK's default configuration fail to load", [.loadConfig region])
      | .ok cfg =>
        match env.headObject cfg bucket key with
        | .error _ =>
          (.error ("HeadObject failed to fetch : Bucket " ++ goQuote bucket ++
              ", Key " ++ goQuote key ++ ", Region " ++ goQuote region),
            [.loadConfig region, .headObject bucket key])
        | .ok _contentLength =>
          match env.download cfg bucket key with
          | .error _ =>
            (.error ("file in S3 failed to fetch : uri " ++ goQuote uri),
              [.loadConfig region, .headObject bucket key, .download bucket key])
          | .ok buf =>
            (env.newRetrievedFromYAML buf,
              [.loadConfig region, .headObject bucket key, .download bucket key])

end s3provider

namespace httpprovider

def schemeName : String := "http"

/-- The collaborators of the http provider's `Retrieve`: the injected
`httpClient.Get` and the external YAML decoder. -/
structure Env (B V : Type) where
  get : String → Except String (HttpResponse B)
  newRetrievedFromYAML : B → Except String V

/-- `Retrieve` of the http provider, with a flag recording whether the HTTP
GET was performed.  Note that, exactly as in the source, the response's
status code is never inspected. -/
def Retrieve {B V : Type} (env : Env B V) (uri : String) :
    Except String V × Bool :=
  if !goHasPrefix uri (schemeName ++ "://") then
    (.error (unsupportedMsg schemeName uri), false)
  else
    match env.get uri with
    | .error e =>
      (.error ("unable to download the file via HTTP GET for uri " ++
        goQuote uri ++ ", with err: " ++ e ++ " "), true)
    | .ok resp =>
      match resp.readBody with
      | .error e =>
        (.error ("fail to read the response body from uri " ++
          goQuote uri ++ ", with err: " ++ e ++ " "), true)
      | .ok body => (env.newRetrievedFromYAML body, true)

end httpprovider

namespace httpsprovider

def schemeName : String := "https"

/-- The TLS client configuration built by the https provider before the GET. -/
structure TLSConfig (P : Type) where
  insecureSkipVerify : Bool
  rootCAs : P
deriving DecidableEq

/-- The ambient world of the https provider's `Retrieve`: the
`SSL_CERT_FILE` environment variable, `x509.SystemCertPool`,
`ioutil.ReadFile`, `pool.AppendCertsFromPEM` (`none` models the `false`
return; `some pool` models the mutated pool on success), the TLS-configured
`client.Get`, and the external YAML decoder.  `P` is the certificate-pool
type. -/
structure Env (P B V : Type) where
  sslCertFile : String
  systemCertPool : Except String P
  readFile : String → Except String B
  appendCertsFromPEM : P → B → Option P
  get : String → TLSConfig P → Except String (HttpResponse B)
  newRetrievedFromYAML : B → Except String V

/-- `Retrieve` of the https provider
(`confmap/provider/httpsprovider/provider.go`), with the TLS
configurations of the GET calls it performs recorded in the returned
trace. -/
def Retrieve {P B V : Type} (env : Env P B V) (uri : String) :
    Except String V × List (TLSConfig P) :=
  if !goHasPrefix uri (schemeName ++ "://") then
    (.error (unsupportedMsg schemeName uri), [])
  else
    match env.systemCertPool with
    | .error _ => (.error "unable to create a cert pool", [])
    | .ok pool =>
      match env.readFile env.sslCertFile with
      | .error _ =>
        (.error ("unable to read CA from uri " ++ goQuote env.sslCertFile), [])
      | .ok crt =>
        match env.appendCertsFromPEM pool crt with
        | none =>
          (.error ("unable to add CA from uri " ++ goQuote env.sslCertFile ++
            " into the cert pool"), [])
        | some pool' =>
          let conf : TLSConfig P := ⟨false, pool'⟩
          match env.get uri conf with
          | .error _ =>
            (.error ("unable to download the file via HTTPS GET for uri " ++
              goQuote uri), [conf])
          | .ok r =>
            match r.readBody with
            | .error _ =>
              (.error ("fail to read the response body from uri " ++
                goQuote uri), [conf])
            | .ok body => (env.newRetrievedFromYAML body, [conf])

end httpsprovider


/-- A closed s3 environment for concrete evaluations: credentials as given,
every SDK call succeeding trivially. -/
def s3EnvTest (ak sk : String) : s3provider.Env Unit Unit Unit where
  accessKeyID := ak
  secretAccessKey := sk
  loadDefaultConfig := fun _ => .ok ()
  headObject := fun _ _ _ => .ok 0
  download := fun _ _ _ => .ok ()
  newRetrievedFromYAML := fun _ => .ok ()

/-- A closed http environment whose GET always answers with the given
status code and a trivially readable, trivially decodable body. -/
def httpEnvStatus (code : Nat) : httpprovider.Env Unit Unit where
  get := fun _ => .ok ⟨code, .ok ()⟩
  newRetrievedFromYAML := fun _ => .ok ()

/-- A closed https environment: the system pool exists, and reading or
PEM-parsing the CA file succeeds according to the two flags. -/
def httpsEnvTest (readOk appendOk : Bool) : httpsprovider.Env Unit Unit Unit where
  sslCertFile := "/etc/ssl/ca.pem"
  systemCertPool := .ok ()
  readFile := fun _ => if readOk then .ok () else .error "open failed"
  appendCertsFromPEM := fun _ _ => if appendOk then some () else none
  get := fun _ _ => .error "refused"
  newRetrievedFromYAML := fun _ => .ok ()

deriving instance DecidableEq for Except

theorem splitOnFuel_fuel_eq (s0 : Char) (s' : List Char) :
    ∀ n f l, l.length ≤ n → l.length ≤ f →
      splitOnFuel s0 s' f l = splitOnFuel s0 s' l.length l := by
  intro n
  induction n with
  | zero =>
    intro f l h1 _
    have hl : l = [] := by cases l with
      | nil => rfl
      | cons a as => simp at h1
    subst hl
    cases f <;> rfl
  | succ n ih =>
    intro f l h1 h2
    match l, f with
    | [], f => cases f <;> rfl
    | c :: rest, 0 => simp at h2
    | c :: rest, f + 1 =>
      simp only [splitOnFuel, List.length_cons]
      have hr : rest.length ≤ n := by
        simpa using Nat.le_of_succ_le_succ h1
      have hrf : rest.length ≤ f := by
        simpa using Nat.le_of_succ_le_succ h2
      cases hpre : (s0 :: s').isPrefixOf (c :: rest) with
      | true =>
        simp only [hpre, if_true]
        have hd : (rest.drop s'.length).length ≤ rest.length := by
          simp [List.length_drop]
        rw [ih f (rest.drop s'.length) (le_trans hd hr) (le_trans hd hrf),
            ih rest.length (rest.drop s'.length) (le_trans hd hr) hd]
      | false =>
        simp only [hpre, Bool.false_eq_true, if_false]
        rw [ih f rest hr hrf]

theorem splitOnL_nil (s0 : Char) (s' : List Char) : splitOnL s0 s' [] = [[]] := rfl

theorem splitOnL_cons (s0 : Char) (s' : List Char) (c : Char) (rest : List Char) :
    splitOnL s0 s' (c :: rest) =
      if (s0 :: s').isPrefixOf (c :: rest) then
        [] :: splitOnL s0 s' (rest.drop s'.length)
      else
        match splitOnL s0 s' rest with
        | [] => [[c]]
        | h :: t => (c :: h) :: t := by
  show splitOnFuel s0 s' (rest.length + 1) (c :: rest) = _
  simp only [splitOnFuel]
  by_cases hpre : (s0 :: s').isPrefixOf (c :: rest) = true
  · simp only [hpre, if_true]
    rw [splitOnFuel_fuel_eq s0 s' rest.length rest.length (rest.drop s'.length)
        (by simp [List.length_drop]) (by simp [List.length_drop])]
    rfl
  · simp only [hpre, if_false]
    rfl

theorem isPrefixOf_append_self (p t : List Char) : p.isPrefixOf (p ++ t) = true := by
  induction p with
  | nil => simp [List.isPrefixOf]
  | cons a as ih => simp [List.isPrefixOf, ih]

theorem infixOf_of_prefixOf {p l : List Char} (h : p.isPrefixOf l = true) :
    listIsInfixOf p l = true := by
  cases l with
  | nil =>
    cases p with
    | nil => rfl
    | cons a as => simp [List.isPrefixOf] at h
  | cons c rest => simp [listIsInfixOf, h]

theorem infixOf_append_self (p a b : List Char) :
    listIsInfixOf p (a ++ p ++ b) = true := by
  induction a with
  | nil => simpa using infixOf_of_prefixOf (isPrefixOf_append_self p b)
  | cons x a ih =>
    have hsh : (x :: a) ++ p ++ b = x :: (a ++ p ++ b) := by simp
    rw [hsh]
    simp only [listIsInfixOf, Bool.or_eq_true]
    right
    simpa [List.append_assoc] using ih

theorem infixOf_of_isInfix {p l : List Char} (h : p <:+: l) :
    listIsInfixOf p l = true := by
  obtain ⟨s, t, hst⟩ := h
  rw [← hst]
  exact infixOf_append_self p s t

theorem isInfix_of_infixOf {p l : List Char} (h : listIsInfixOf p l = true) :
    p <:+: l := by
  induction l with
  | nil =>
    have : p = [] := by
      cases p with
      | nil => rfl
      | cons a as => simp [listIsInfixOf, List.isEmpty] at h
    simp [this]
  | cons c rest ih =>
    simp only [listIsInfixOf, Bool.or_eq_true] at h
    rcases h with h | h
    · exact (List.isPrefixOf_iff_prefix.mp h).isInfix
    · exact (ih h).trans (List.suffix_cons c rest).isInfix

theorem mem_of_infixOf {p l : List Char} {c : Char}
    (h : listIsInfixOf p l = true) (hc : c ∈ p) : c ∈ l := by
  obtain ⟨s, t, hst⟩ := isInfix_of_infixOf h
  rw [← hst]
  simp [hc]

theorem infixOf_eq_false_of_head_not_mem {s0 : Char} {s' l : List Char}
    (h : s0 ∉ l) : listIsInfixOf (s0 :: s') l = false := by
  induction l with
  | nil => rfl
  | cons c rest ih =>
    have hne : (s0 == c) = false := by
      simp only [List.mem_cons, not_or] at h
      simp [h.1]
    simp only [listIsInfixOf, List.isPrefixOf, hne, Bool.false_and, Bool.false_or]
    exact ih (by simp only [List.mem_cons, not_or] at h; exact h.2)

theorem splitOnL_exists_cons (s0 : Char) (s' l : List Char) :
    ∃ h t, splitOnL s0 s' l = h :: t := by
  induction l with
  | nil => exact ⟨[], [], rfl⟩
  | cons c rest ih =>
    rw [splitOnL_cons]
    cases hpre : (s0 :: s').isPrefixOf (c :: rest) with
    | true =>
      refine ⟨[], splitOnL s0 s' (rest.drop s'.length), ?_⟩
      simp [hpre]
    | false =>
      obtain ⟨h, t, hht⟩ := ih
      rw [hht]
      exact ⟨c :: h, t, by simp⟩

theorem splitOnL_of_not_infixOf {s0 : Char} {s' l : List Char}
    (h : listIsInfixOf (s0 :: s') l = false) : splitOnL s0 s' l = [l] := by
  induction l with
  | nil => rfl
  | cons c rest ih =>
    simp only [listIsInfixOf, Bool.or_eq_false_iff] at h
    rw [splitOnL_cons, h.1, ih h.2]
    simp

theorem splitOnL_of_not_mem {s0 : Char} {l : List Char} (h : s0 ∉ l) :
    splitOnL s0 [] l = [l] :=
  splitOnL_of_not_infixOf (infixOf_eq_false_of_head_not_mem h)

theorem splitOnL_eq_cons (s0 : Char) (s' : List Char) (l a rest : List Char)
    (hl : l = a ++ (s0 :: s') ++ rest)
    (h : ∀ i, i < a.length → (s0 :: s').isPrefixOf (l.drop i) = false) :
    splitOnL s0 s' l = a :: splitOnL s0 s' rest := by
  subst hl
  induction a with
  | nil =>
    simp only [List.nil_append]
    have hshape : (s0 :: s') ++ rest = s0 :: (s' ++ rest) := by simp
    rw [hshape, splitOnL_cons]
    have hpre : (s0 :: s').isPrefixOf (s0 :: (s' ++ rest)) = true := by
      simpa using isPrefixOf_append_self (s0 :: s') rest
    rw [hpre, if_pos rfl, List.drop_left]
  | cons x a ih =>
    have hshape : (x :: a) ++ (s0 :: s') ++ rest = x :: (a ++ (s0 :: s') ++ rest) := by
      simp
    have h0 : (s0 :: s').isPrefixOf (x :: (a ++ (s0 :: s') ++ rest)) = false := by
      have := h 0 (by simp)
      simpa [hshape] using this
    rw [hshape, splitOnL_cons, h0]
    have ihh : ∀ i, i < a.length →
        (s0 :: s').isPrefixOf ((a ++ (s0 :: s') ++ rest).drop i) = false := by
      intro i hi
      have := h (i + 1) (by simp; omega)
      simpa [hshape, List.drop_succ_cons] using this
    rw [ih ihh]
    simp

theorem noPre_head (s0 : Char) (s' a z : List Char) (ha : s0 ∉ a) :
    ∀ i, i < a.length → (s0 :: s').isPrefixOf ((a ++ z).drop i) = false := by
  intro i hi
  rw [List.drop_append_of_le_length (le_of_lt hi),
      List.drop_eq_getElem_cons hi]
  have hne : (s0 == a[i]) = false := by
    have : a[i] ∈ a := List.getElem_mem hi
    have : s0 ≠ a[i] := fun he => ha (he ▸ this)
    simp [this]
  simp [List.isPrefixOf, hne]

theorem noPre_borderFree (s0 : Char) (s' : List Char)
    (hbf : ∀ t, t < (s0 :: s').length → 0 < t →
      (s0 :: s').drop t ≠ (s0 :: s').take ((s0 :: s').length - t))
    (w z : List Char) (hw : listIsInfixOf (s0 :: s') w = false) :
    ∀ i, i < w.length → (s0 :: s').isPrefixOf ((w ++ (s0 :: s') ++ z).drop i) = false := by
  intro i hi
  cases hb : (s0 :: s').isPrefixOf ((w ++ (s0 :: s') ++ z).drop i) with
  | false => rfl
  | true =>
    exfalso
    have hdrop : (w ++ (s0 :: s') ++ z).drop i = w.drop i ++ ((s0 :: s') ++ z) := by
      rw [List.append_assoc, List.drop_append_of_le_length (le_of_lt hi)]
    rw [hdrop] at hb
    have hp : (s0 :: s') <+: (w.drop i ++ ((s0 :: s') ++ z)) :=
      List.isPrefixOf_iff_prefix.mp hb
    set SEP := s0 :: s' with hSEP
    set d := w.drop i with hd
    have hdlen : d.length = w.length - i := by simp [hd]
    have hdpos : 0 < d.length := by omega
    by_cases hL : SEP.length ≤ d.length
    · -- the occurrence fits inside w, contradicting `hw`
      have htake : SEP = (d ++ (SEP ++ z)).take SEP.length :=
        List.prefix_iff_eq_take.mp hp
      rw [List.take_append_of_le_length hL] at htake
      have hpre_d : SEP <+: d := htake ▸ List.take_prefix SEP.length d
      obtain ⟨u, hu⟩ := hpre_d
      have hinf : SEP <:+: w := by
        refine ⟨w.take i, u, ?_⟩
        have htad : w.take i ++ d = w := List.take_append_drop i w
        rw [List.append_assoc, hu]
        exact htad
      exact absurd (infixOf_of_isInfix hinf) (by simp [hw])
    · -- the occurrence straddles the boundary, contradicting borderlessness
      push_neg at hL
      set t := d.length with ht
      have hborder : SEP.drop t = SEP.take (SEP.length - t) := by
        apply List.ext_getElem
        · simp [List.length_drop, List.length_take]
        · intro j h1 h2
          have hj : j < SEP.length - t := by simpa [List.length_drop] using h1
          have hj1 : t + j < SEP.length := by omega
          have hjz : t + j < (d ++ (SEP ++ z)).length := by simp; omega
          have hjsz : j < (SEP ++ z).length := by simp; omega
          have e1 : (SEP.drop t)[j] = SEP[t + j] := by
            simp [List.getElem_drop]
          have e2 : (SEP.take (SEP.length - t))[j] = SEP[j] := by
            simp [List.getElem_take]
          rw [e1, e2]
          have hg0 : SEP[t + j] = (d ++ (SEP ++ z))[t + j] := hp.getElem hj1
          have hg2 : (d ++ (SEP ++ z))[t + j] = (SEP ++ z)[j] := by
            rw [List.getElem_append_right (by omega)]
            congr 1
            omega
          have hg3 : (SEP ++ z)[j] = SEP[j] := List.getElem_append_left (by omega)
          rw [hg0, hg2, hg3]
      exact hbf t hL hdpos hborder

/-- The marker `".amazonaws.com/"` cannot occur inside the virtual-hosted
prefix `"s3://" ++ b ++ "." ++ x ++ "." ++ r` when `b`, `x`, `r` are
dot-free and `x` is not the literal `"amazonaws"`: the prefix has exactly
two dots while an occurrence of the marker would force a full `"amazonaws"`
dot-separated segment. -/
theorem marker_not_infixOf (b x r : List Char)
    (hb : ('.' : Char) ∉ b) (hx : ('.' : Char) ∉ x)
    (hxa : x ≠ "amazonaws".data) (hr : ('.' : Char) ∉ r) :
    listIsInfixOf ('.' :: "amazonaws.com/".data)
      ("s3://".data ++ b ++ ['.'] ++ x ++ ['.'] ++ r) = false := by
  cases hinf : listIsInfixOf ('.' :: "amazonaws.com/".data)
      ("s3://".data ++ b ++ ['.'] ++ x ++ ['.'] ++ r) with
  | false => rfl
  | true =>
    exfalso
    obtain ⟨s, t, hst⟩ := isInfix_of_infixOf hinf
    have hst' : s ++ ('.' :: "amazonaws.com/".data) ++ t =
        "s3://".data ++ b ++ ['.'] ++ x ++ ['.'] ++ r := hst
    have hcnt := congrArg (fun l => List.count '.' l) hst'
    simp only [List.count_append] at hcnt
    have hSEPc : List.count '.' ('.' :: "amazonaws.com/".data) = 2 := by decide
    have hc1 : List.count '.' "s3://".data = 0 := by decide
    have hdot : List.count '.' (['.'] : List Char) = 1 := by decide
    have hb0 : List.count '.' b = 0 := List.count_eq_zero.mpr hb
    have hx0 : List.count '.' x = 0 := List.count_eq_zero.mpr hx
    have hr0 : List.count '.' r = 0 := List.count_eq_zero.mpr hr
    rw [hSEPc, hc1, hdot, hb0, hx0, hr0] at hcnt
    have hs : ('.' : Char) ∉ s := List.count_eq_zero.mp (by omega)
    have ht : ('.' : Char) ∉ t := List.count_eq_zero.mp (by omega)
    have hsdot : ('.' : Char) ∉ "s3://".data ++ b := by
      intro hmem
      rcases List.mem_append.mp hmem with h | h
      · exact absurd h (by decide)
      · exact hb h
    have h1 := splitOnL_eq_cons '.' []
      ("s3://".data ++ b ++ ['.'] ++ x ++ ['.'] ++ r)
      ("s3://".data ++ b) (x ++ ['.'] ++ r)
      (by simp [List.append_assoc])
      (by
        intro i hi
        have := noPre_head '.' [] ("s3://".data ++ b)
          (['.'] ++ (x ++ ['.'] ++ r)) hsdot i hi
        simpa [List.append_assoc] using this)
    have h2 := splitOnL_eq_cons '.' [] (x ++ ['.'] ++ r) x r
      (by simp [List.append_assoc])
      (by
        intro i hi
        have := noPre_head '.' [] x (['.'] ++ r) hx i hi
        simpa [List.append_assoc] using this)
    have h3 : splitOnL '.' [] r = [r] := splitOnL_of_not_mem hr
    have hMd : ('.' :: "amazonaws.com/".data) =
        ['.'] ++ ("amazonaws".data ++ (['.'] ++ "com/".data)) := by decide
    have hcomt : ('.' : Char) ∉ "com/".data ++ t := by
      intro hmem
      rcases List.mem_append.mp hmem with h | h
      · exact absurd h (by decide)
      · exact ht h
    have h4 := splitOnL_eq_cons '.' []
      ("s3://".data ++ b ++ ['.'] ++ x ++ ['.'] ++ r)
      s ("amazonaws".data ++ ['.'] ++ ("com/".data ++ t))
      (by rw [← hst', hMd]; simp [List.append_assoc])
      (by
        intro i hi
        have := noPre_head '.' [] s (('.' :: "amazonaws.com/".data) ++ t) hs i hi
        rw [← hst']
        simpa [List.append_assoc] using this)
    have h5 := splitOnL_eq_cons '.' []
      ("amazonaws".data ++ ['.'] ++ ("com/".data ++ t))
      "amazonaws".data ("com/".data ++ t)
      (by simp [List.append_assoc])
      (by
        intro i hi
        have := noPre_head '.' [] "amazonaws".data (['.'] ++ ("com/".data ++ t))
          (by decide) i hi
        simpa [List.append_assoc] using this)
    have h6 : splitOnL '.' [] ("com/".data ++ t) = ["com/".data ++ t] :=
      splitOnL_of_not_mem hcomt
    have e1 : splitOnL '.' [] ("s3://".data ++ b ++ ['.'] ++ x ++ ['.'] ++ r) =
        ["s3://".data ++ b, x, r] := by rw [h1, h2, h3]
    have e2 : splitOnL '.' [] ("s3://".data ++ b ++ ['.'] ++ x ++ ['.'] ++ r) =
        [s, "amazonaws".data, "com/".data ++ t] := by rw [h4, h5, h6]
    have hway := e1.symm.trans e2
    simp only [List.cons.injEq] at hway
    exact hxa hway.2.1

/-- Splitting a virtual-hosted-style URI at every `'.'`: the three dot-free
segments before the marker fall out, and the marker itself contributes its
`"amazonaws"` segment. -/
theorem splitDot_chain (b x r tail : List Char)
    (hb : ('.' : Char) ∉ b) (hx : ('.' : Char) ∉ x) (hr : ('.' : Char) ∉ r) :
    splitOnL '.' [] (("s3://".data ++ b ++ ['.'] ++ x ++ ['.'] ++ r) ++
        ('.' :: "amazonaws.com/".data) ++ tail) =
      ("s3://".data ++ b) :: x :: r :: "amazonaws".data ::
        splitOnL '.' [] ("com/".data ++ tail) := by
  have hM2 : "amazonaws.com/".data = "amazonaws".data ++ (['.'] ++ "com/".data) := by
    decide
  have hsdot : ('.' : Char) ∉ "s3://".data ++ b := by
    intro hmem
    rcases List.mem_append.mp hmem with h | h
    · exact absurd h (by decide)
    · exact hb h
  have h1 := splitOnL_eq_cons '.' []
    (("s3://".data ++ b ++ ['.'] ++ x ++ ['.'] ++ r) ++
      ('.' :: "amazonaws.com/".data) ++ tail)
    ("s3://".data ++ b)
    (x ++ ['.'] ++ r ++ ('.' :: "amazonaws.com/".data) ++ tail)
    (by simp [List.append_assoc])
    (by
      intro i hi
      have := noPre_head '.' [] ("s3://".data ++ b)
        (['.'] ++ (x ++ ['.'] ++ r ++ ('.' :: "amazonaws.com/".data) ++ tail))
        hsdot i hi
      simpa [List.append_assoc] using this)
  have h2 := splitOnL_eq_cons '.' []
    (x ++ ['.'] ++ r ++ ('.' :: "amazonaws.com/".data) ++ tail)
    x (r ++ ('.' :: "amazonaws.com/".data) ++ tail)
    (by simp [List.append_assoc])
    (by
      intro i hi
      have := noPre_head '.' [] x
        (['.'] ++ (r ++ ('.' :: "amazonaws.com/".data) ++ tail)) hx i hi
      simpa [List.append_assoc] using this)
  have h3 := splitOnL_eq_cons '.' []
    (r ++ ('.' :: "amazonaws.com/".data) ++ tail)
    r ("amazonaws".data ++ ['.'] ++ ("com/".data ++ tail))
    (by simp [hM2, List.append_assoc])
    (by
      intro i hi
      have := noPre_head '.' [] r
        (['.'] ++ ("amazonaws".data ++ ['.'] ++ ("com/".data ++ tail))) hr i hi
      simpa [hM2, List.append_assoc] using this)
  have h4 := splitOnL_eq_cons '.' []
    ("amazonaws".data ++ ['.'] ++ ("com/".data ++ tail))
    "amazonaws".data ("com/".data ++ tail)
    (by simp [List.append_assoc])
    (by
      intro i hi
      have := noPre_head '.' [] "amazonaws".data (['.'] ++ ("com/".data ++ tail))
        (by decide) i hi
      simpa [List.append_assoc] using this)
  rw [h1, h2, h3, h4]

/-- Splitting `"s3://" ++ b` at `"://"` yields `["s3", b]` when `b` is
colon-free. -/
theorem splitColon_s3 (b : List Char) (hbc : (':' : Char) ∉ b) :
    splitOnL ':' "//".data ("s3://".data ++ b) = ["s3".data, b] := by
  have hlit : "s3://".data = 's' :: '3' :: ':' :: '/' :: '/' :: [] := rfl
  have h1 := splitOnL_eq_cons ':' "//".data ("s3://".data ++ b) "s3".data b
    (by rw [hlit]; rfl)
    (by
      intro i hi
      have hi2 : i < 2 := by
        have : ("s3".data : List Char).length = 2 := rfl
        omega
      interval_cases i <;>
        · rw [hlit]
          simp [List.isPrefixOf])
  rw [h1, splitOnL_of_not_infixOf (infixOf_eq_false_of_head_not_mem hbc)]

/-- Splitting at the marker `".amazonaws.com/"` when the marker does not
occur in the prefix `P`. -/
theorem splitMarker_prefix (P w : List Char)
    (hP : listIsInfixOf ('.' :: "amazonaws.com/".data) P = false) :
    splitOnL '.' "amazonaws.com/".data (P ++ ('.' :: "amazonaws.com/".data) ++ w) =
      P :: splitOnL '.' "amazonaws.com/".data w := by
  have hbf : ∀ t, t < ('.' :: "amazonaws.com/".data).length → 0 < t →
      ('.' :: "amazonaws.com/".data).drop t ≠
        ('.' :: "amazonaws.com/".data).take (('.' :: "amazonaws.com/".data).length - t) := by
    decide
  exact splitOnL_eq_cons '.' "amazonaws.com/".data _ P w rfl
    (noPre_borderFree '.' "amazonaws.com/".data hbf P w hP)

theorem goSplit_stop (s : String) :
    goSplit s s3provider.stop = (splitOnL '.' [] s.data).map String.mk := rfl

theorem goSplit_colonSlashes (s : String) :
    goSplit s s3provider.colonSlashes =
      (splitOnL ':' "//".data s.data).map String.mk := rfl

theorem goSplit_s3URITail (s : String) :
    goSplit s s3provider.s3URITail =
      (splitOnL '.' "amazonaws.com/".data s.data).map String.mk := rfl

theorem mk_data_eq (s : String) : String.mk s.data = s := rfl

theorem mk_append_data (s t : String) : String.mk (s.data ++ t.data) = s ++ t := rfl

/-- Evaluation of `S3URISplit` on a virtual-hosted-style URI built from a
dot-free, colon-free bucket `b`, a dot-free middle segment `x` (not the
literal `"amazonaws"`), a dot-free region `r`, and a remainder `w` whose
marker-split starts with the component `kl`. -/
theorem S3URISplit_eval (b x r w : String) (kl : List Char) (krest : List (List Char))
    (hb : b ≠ "") (hbdot : ('.' : Char) ∉ b.data) (hbcolon : (':' : Char) ∉ b.data)
    (hxdot : ('.' : Char) ∉ x.data) (hxa : x.data ≠ "amazonaws".data)
    (hr : r ≠ "") (hrdot : ('.' : Char) ∉ r.data)
    (hw : splitOnL '.' "amazonaws.com/".data w.data = kl :: krest)
    (hk : String.mk kl ≠ "") :
    s3provider.S3URISplit ("s3://" ++ b ++ "." ++ x ++ "." ++ r ++ ".amazonaws.com/" ++ w)
      = .ok (b, r, String.mk kl) := by
  have hdata : ("s3://" ++ b ++ "." ++ x ++ "." ++ r ++ ".amazonaws.com/" ++ w).data =
      ("s3://".data ++ b.data ++ ['.'] ++ x.data ++ ['.'] ++ r.data) ++
        ('.' :: "amazonaws.com/".data) ++ w.data := by
    simp [String.data_append, List.append_assoc,
      show (".".data : List Char) = ['.'] from rfl,
      show (".amazonaws.com/".data : List Char) = '.' :: "amazonaws.com/".data from rfl]
  have hdot := splitDot_chain b.data x.data r.data w.data hbdot hxdot hrdot
  obtain ⟨k0, ks, hks⟩ := splitOnL_exists_cons '.' [] ("com/".data ++ w.data)
  have hmark := splitMarker_prefix
    ("s3://".data ++ b.data ++ ['.'] ++ x.data ++ ['.'] ++ r.data) w.data
    (marker_not_infixOf b.data x.data r.data hbdot hxdot hxa hrdot)
  have hsplitted : goSplit ("s3://" ++ b ++ "." ++ x ++ "." ++ r ++ ".amazonaws.com/" ++ w)
      s3provider.stop =
      ("s3://" ++ b) :: x :: r :: "amazonaws" :: (k0 :: ks).map String.mk := by
    rw [goSplit_stop, hdata, hdot, hks]
    rfl
  have hkey : goSplit ("s3://" ++ b ++ "." ++ x ++ "." ++ r ++ ".amazonaws.com/" ++ w)
      s3provider.s3URITail =
      String.mk ("s3://".data ++ b.data ++ ['.'] ++ x.data ++ ['.'] ++ r.data) ::
        String.mk kl :: krest.map String.mk := by
    rw [goSplit_s3URITail, hdata, hmark, hw]
    simp
  have hbucket : goSplit ("s3://" ++ b) s3provider.colonSlashes = ["s3", b] := by
    rw [goSplit_colonSlashes, String.data_append, splitColon_s3 b.data hbcolon]
    simp only [List.map_cons, List.map_nil, mk_data_eq]
  simp only [s3provider.S3URISplit, hsplitted, hkey, hbucket, List.map_cons,
    List.length_cons, List.length_map, List.length_nil,
    List.getD_eq_getElem?_getD, List.getElem?_cons_zero, List.getElem?_cons_succ,
    Option.getD_some]
  rw [if_neg (by omega), if_neg (by omega), if_neg (by omega),
      if_neg (by simp [hb, hr, hk])]

theorem str_eq_of_data_eq {s t : String} (h : s.data = t.data) : s = t := by
  cases s
  cases t
  exact congrArg String.mk h

theorem flatMap_goEscapeChar_of_plain (l : List Char) (h : l.all plainChar = true) :
    l.flatMap goEscapeChar = l := by
  induction l with
  | nil => rfl
  | cons c rest ih =>
    simp only [List.all_cons, Bool.and_eq_true] at h
    have hc := h.1
    simp only [plainChar, Bool.and_eq_true, decide_eq_true_eq, Bool.not_eq_true,
      decide_eq_false_iff_not] at hc
    have hq : c ≠ '"' := by simpa using hc.1.2
    have hbs : c ≠ '\\' := by simpa using hc.2
    have hgc : goEscapeChar c = [c] := by
      simp only [goEscapeChar]
      rw [if_neg hq, if_neg hbs, if_pos hc.1.1]
    simp [List.flatMap_cons, hgc, ih h.2]

theorem goQuote_data_of_plain (s : String) (h : plainString s = true) :
    (goQuote s).data = '"' :: s.data ++ ['"'] := by
  simp [goQuote, flatMap_goEscapeChar_of_plain s.data h]

theorem strContains_around_quote (pre suf uri : String) (h : plainString uri = true) :
    strContains (pre ++ goQuote uri ++ suf) uri = true := by
  unfold strContains
  have hd : (pre ++ goQuote uri ++ suf).data =
      (pre.data ++ ['"']) ++ uri.data ++ (['"'] ++ suf.data) := by
    simp [String.data_append, goQuote_data_of_plain uri h, List.append_assoc]
  rw [hd]
  exact infixOf_append_self uri.data (pre.data ++ ['"']) (['"'] ++ suf.data)

theorem mem_of_goHasPrefix {uri p : String} {c : Char}
    (h : goHasPrefix uri p = true) (hc : c ∈ p.data) : c ∈ uri.data := by
  obtain ⟨t, ht⟩ := List.isPrefixOf_iff_prefix.mp h
  rw [← ht]
  exact List.mem_append.mpr (Or.inl hc)

theorem strContains_eq_false_of_not_mem {msg uri : String} {c : Char}
    (hmsg : c ∉ msg.data) (huri : c ∈ uri.data) : strContains msg uri = false := by
  cases hcon : strContains msg uri with
  | false => rfl
  | true => exact absurd (mem_of_infixOf hcon huri) hmsg

/-- C2: `S3URISplit` on every well-formed virtual-hosted-style URI
`s3://{bucket}.s3.{region}.amazonaws.com/{key}` (bucket non-empty, free of
`'.'` and `':'`; region non-empty and dot-free; key non-empty and not
containing the `".amazonaws.com/"` marker again) returns exactly this
bucket, region and key; in particular
`S3URISplit "s3://bucket-x.s3.us-west-2.amazonaws.com/dir/key.yaml" =
.ok ("bucket-x", "us-west-2", "dir/key.yaml")` (see the witness). -/
theorem C2_S3URISplit_wellformed (b r k : String)
    (hb : b ≠ "") (hbdot : ('.' : Char) ∉ b.data) (hbcolon : (':' : Char) ∉ b.data)
    (hr : r ≠ "") (hrdot : ('.' : Char) ∉ r.data)
    (hk : k ≠ "") (hkm : listIsInfixOf ".amazonaws.com/".data k.data = false) :
    s3provider.S3URISplit ("s3://" ++ b ++ ".s3." ++ r ++ ".amazonaws.com/" ++ k) =
      .ok (b, r, k) := by
  have hconv : "s3://" ++ b ++ ".s3." ++ r ++ ".amazonaws.com/" ++ k =
      "s3://" ++ b ++ "." ++ "s3" ++ "." ++ r ++ ".amazonaws.com/" ++ k := by
    apply str_eq_of_data_eq
    simp [String.data_append,
      show (".s3." : String).data = '.' :: 's' :: '3' :: '.' :: [] from rfl,
      show ("." : String).data = ['.'] from rfl,
      show ("s3" : String).data = 's' :: '3' :: [] from rfl]
  have hw : splitOnL '.' "amazonaws.com/".data k.data = k.data :: [] :=
    splitOnL_of_not_infixOf hkm
  have h := S3URISplit_eval b "s3" r k k.data []
    hb hbdot hbcolon (by decide) (by decide) hr hrdot hw
    (by rw [mk_data_eq]; exact hk)
  rw [hconv, h, mk_data_eq]

/-- C2 witness: the concrete decomposition from the specification. -/
theorem C2_witness :
    s3provider.S3URISplit "s3://bucket-x.s3.us-west-2.amazonaws.com/dir/key.yaml" =
      .ok ("bucket-x", "us-west-2", "dir/key.yaml") := by
  have h := C2_S3URISplit_wellformed "bucket-x" "us-west-2" "dir/key.yaml"
    (by decide) (by decide) (by decide) (by decide) (by decide) (by decide) (by decide)
  have he : "s3://" ++ "bucket-x" ++ ".s3." ++ "us-west-2" ++ ".amazonaws.com/" ++
      "dir/key.yaml" = "s3://bucket-x.s3.us-west-2.amazonaws.com/dir/key.yaml" := by
    decide
  rw [he] at h
  exact h

/-- C8 counterexample: the second `.`-separated segment of the URI is
`"x9"`, not the literal `"s3"`, yet `S3URISplit` accepts the URI — the code
never validates that segment, refuting the claim that such URIs are
rejected. -/
theorem C8_counterexample :
    s3provider.S3URISplit "s3://bucket.x9.region.amazonaws.com/key" =
      .ok ("bucket", "region", "key") := by decide

/-- C8 (amended): `S3URISplit` validates only the dot-segment count, the
`"://"` delimiter, the `".amazonaws.com/"` marker, and non-emptiness of the
extracted components; the second `.`-separated segment is never compared
with the literal `"s3"`, so any dot-free segment (other than a segment that
recreates the marker, such as `"amazonaws"`) is accepted. -/
theorem C8_amended (b x r k : String)
    (hb : b ≠ "") (hbdot : ('.' : Char) ∉ b.data) (hbcolon : (':' : Char) ∉ b.data)
    (hxdot : ('.' : Char) ∉ x.data) (hxa : x.data ≠ "amazonaws".data)
    (hr : r ≠ "") (hrdot : ('.' : Char) ∉ r.data)
    (hk : k ≠ "") (hkm : listIsInfixOf ".amazonaws.com/".data k.data = false) :
    s3provider.S3URISplit ("s3://" ++ b ++ "." ++ x ++ "." ++ r ++ ".amazonaws.com/" ++ k) =
      .ok (b, r, k) := by
  have hw : splitOnL '.' "amazonaws.com/".data k.data = k.data :: [] :=
    splitOnL_of_not_infixOf hkm
  have h := S3URISplit_eval b x r k k.data []
    hb hbdot hbcolon hxdot hxa hr hrdot hw
    (by rw [mk_data_eq]; exact hk)
  rw [h, mk_data_eq]

/-- C8 witness: a URI whose second segment is `"ec2"` is accepted with the
same bucket/region/key extraction. -/
theorem C8_witness :
    s3provider.S3URISplit "s3://mybkt.ec2.eu-north-1.amazonaws.com/cfg/otel.yaml" =
      .ok ("mybkt", "eu-north-1", "cfg/otel.yaml") := by
  have h := C8_amended "mybkt" "ec2" "eu-north-1" "cfg/otel.yaml"
    (by decide) (by decide) (by decide) (by decide) (by decide) (by decide) (by decide)
    (by decide) (by decide)
  have he : "s3://" ++ "mybkt" ++ "." ++ "ec2" ++ "." ++ "eu-north-1" ++
      ".amazonaws.com/" ++ "cfg/otel.yaml" =
      "s3://mybkt.ec2.eu-north-1.amazonaws.com/cfg/otel.yaml" := by decide
  rw [he] at h
  exact h

/-- C7 counterexample: the key region of the URI contains a second
occurrence of `".amazonaws.com/"`; `strings.Split` splits at every
occurrence, so the extracted key is `"a"` — the text between the first and
second markers — and not the full remainder `"a.amazonaws.com/c"` the claim
requires. -/
theorem C7_counterexample :
    s3provider.S3URISplit "s3://b.s3.r.amazonaws.com/a.amazonaws.com/c" =
      .ok ("b", "r", "a") ∧ ("a" : String) ≠ "a.amazonaws.com/c" :=
  ⟨by decide, by decide⟩

/-- C7 (amended): for an accepted URI the key is everything following the
first `".amazonaws.com/"` marker only up to the next occurrence of the
marker, if any: when the key region is `k1 ++ ".amazonaws.com/" ++ k2`
with `k1` marker-free, the extracted key is `k1`.  (When the marker occurs
exactly once, the key is the full remainder, including any further `'.'`
or `'/'` characters — that case is covered by the C2 theorem.) -/
theorem C7_amended (b r k1 k2 : String)
    (hb : b ≠ "") (hbdot : ('.' : Char) ∉ b.data) (hbcolon : (':' : Char) ∉ b.data)
    (hr : r ≠ "") (hrdot : ('.' : Char) ∉ r.data)
    (hk1 : k1 ≠ "") (hk1m : listIsInfixOf ".amazonaws.com/".data k1.data = false) :
    s3provider.S3URISplit ("s3://" ++ b ++ ".s3." ++ r ++ ".amazonaws.com/" ++
        (k1 ++ ".amazonaws.com/" ++ k2)) =
      .ok (b, r, k1) := by
  have hconv : "s3://" ++ b ++ ".s3." ++ r ++ ".amazonaws.com/" ++
        (k1 ++ ".amazonaws.com/" ++ k2) =
      "s3://" ++ b ++ "." ++ "s3" ++ "." ++ r ++ ".amazonaws.com/" ++
        (k1 ++ ".amazonaws.com/" ++ k2) := by
    apply str_eq_of_data_eq
    simp [String.data_append,
      show (".s3." : String).data = '.' :: 's' :: '3' :: '.' :: [] from rfl,
      show ("." : String).data = ['.'] from rfl,
      show ("s3" : String).data = 's' :: '3' :: [] from rfl]
  have hwdata : (k1 ++ ".amazonaws.com/" ++ k2).data =
      k1.data ++ ('.' :: "amazonaws.com/".data) ++ k2.data := by
    simp [String.data_append,
      show (".amazonaws.com/" : String).data = '.' :: "amazonaws.com/".data from rfl]
  have hbf : ∀ t, t < ('.' :: "amazonaws.com/".data).length → 0 < t →
      ('.' :: "amazonaws.com/".data).drop t ≠
        ('.' :: "amazonaws.com/".data).take (('.' :: "amazonaws.com/".data).length - t) := by
    decide
  have hw : splitOnL '.' "amazonaws.com/".data (k1 ++ ".amazonaws.com/" ++ k2).data =
      k1.data :: splitOnL '.' "amazonaws.com/".data k2.data := by
    rw [hwdata]
    exact splitOnL_eq_cons '.' "amazonaws.com/".data _ k1.data k2.data rfl
      (noPre_borderFree '.' "amazonaws.com/".data hbf k1.data k2.data hk1m)
  have h := S3URISplit_eval b "s3" r (k1 ++ ".amazonaws.com/" ++ k2) k1.data
    (splitOnL '.' "amazonaws.com/".data k2.data)
    hb hbdot hbcolon (by decide) (by decide) hr hrdot hw
    (by rw [mk_data_eq]; exact hk1)
  rw [hconv, h, mk_data_eq]

/-- C7 witness: with a key region `"x.amazonaws.com/c"` the extracted key
is just `"x"`. -/
theorem C7_witness :
    s3provider.S3URISplit "s3://bkt.s3.us-east-1.amazonaws.com/x.amazonaws.com/c" =
      .ok ("bkt", "us-east-1", "x") := by
  have h := C7_amended "bkt" "us-east-1" "x" "c"
    (by decide) (by decide) (by decide) (by decide) (by decide) (by decide) (by decide)
  have he : "s3://" ++ "bkt" ++ ".s3." ++ "us-east-1" ++ ".amazonaws.com/" ++
      ("x" ++ ".amazonaws.com/" ++ "c") =
      "s3://bkt.s3.us-east-1.amazonaws.com/x.amazonaws.com/c" := by decide
  rw [he] at h
  exact h

/-- C3: `S3URISplit` is total (it is a Lean function returning `Except`,
with every Go index guarded by the preceding length checks), it returns an
error whenever the dot-split has fewer than 5 segments, the `"://"`-split
of the first segment has fewer than 2 parts, the marker-split has fewer
than 2 parts, or any of bucket/region/key is empty; consequently every
`.ok` result has non-empty bucket, region and key, and the two URIs from
the specification are rejected. -/
theorem C3_S3URISplit_safety :
    (∀ uri b r k, s3provider.S3URISplit uri = .ok (b, r, k) →
      b ≠ "" ∧ r ≠ "" ∧ k ≠ "") ∧
    (∀ uri,
      (goSplit uri s3provider.stop).length < 5 ∨
      (goSplit ((goSplit uri s3provider.stop).getD 0 "") s3provider.colonSlashes).length < 2 ∨
      (goSplit uri s3provider.s3URITail).length < 2 ∨
      (goSplit ((goSplit uri s3provider.stop).getD 0 "") s3provider.colonSlashes).getD 1 "" = "" ∨
      (goSplit uri s3provider.stop).getD 2 "" = "" ∨
      (goSplit uri s3provider.s3URITail).getD 1 "" = "" →
      s3provider.S3URISplit uri = .error "invalid s3-uri") ∧
    s3provider.S3URISplit "s3://.s3.us-west-2.amazonaws.com/key" = .error "invalid s3-uri" ∧
    s3provider.S3URISplit "s3://bucket.s3.us-west-2.amazonaws.com/" = .error "invalid s3-uri" := by
  refine ⟨?_, ?_, by decide, by decide⟩
  · intro uri b r k h
    simp only [s3provider.S3URISplit] at h
    split_ifs at h with h1 h2 h3 h4
    push_neg at h4
    simp only [List.getD_eq_getElem?_getD] at h4
    have h' := Except.ok.inj h
    simp only [List.getD_eq_getElem?_getD, Prod.mk.injEq] at h'
    obtain ⟨hbu, hre, hke⟩ := h'
    subst hbu
    subst hre
    subst hke
    exact h4
  · intro uri hcond
    simp only [s3provider.S3URISplit]
    split_ifs with h1 h2 h3 h4
    · rfl
    · rfl
    · rfl
    · rfl
    · exfalso
      push_neg at h4
      rcases hcond with h | h | h | h | h | h
      · exact h1 h
      · exact h2 h
      · exact h3 h
      · exact h4.1 h
      · exact h4.2.1 h
      · exact h4.2.2 h

/-- C3 witness: a well-formed URI yields non-empty components via the first
conjunct, and a URI with too few structural segments is rejected via the
second conjunct. -/
theorem C3_witness :
    (("bucket" : String) ≠ "" ∧ ("region" : String) ≠ "" ∧ ("key" : String) ≠ "") ∧
    s3provider.S3URISplit "s3://x" = .error "invalid s3-uri" :=
  ⟨C3_S3URISplit_safety.1 "s3://bucket.s3.region.amazonaws.com/key"
      "bucket" "region" "key" (by decide),
    C3_S3URISplit_safety.2.1 "s3://x" (Or.inl (by decide))⟩

/-- C1: for a URI that does not carry the provider's scheme prefix
(`"http://"`, `"https://"`, `"s3:"` respectively), each provider's
`Retrieve` returns the unsupported-scheme error (with the zero-value
result, here the value-free `.error` branch) and its transport trace is
empty — no GET, no SDK call, no fetch step of any kind. -/
theorem C1_unsupported_scheme_no_fetch {B V P C : Type}
    (eh : httpprovider.Env B V) (es : httpsprovider.Env P B V)
    (e3 : s3provider.Env C B V) (u1 u2 u3 : String)
    (h1 : goHasPrefix u1 (httpprovider.schemeName ++ "://") = false)
    (h2 : goHasPrefix u2 (httpsprovider.schemeName ++ "://") = false)
    (h3 : goHasPrefix u3 (s3provider.schemeName ++ ":") = false) :
    httpprovider.Retrieve eh u1 =
      (.error (unsupportedMsg httpprovider.schemeName u1), false) ∧
    httpsprovider.Retrieve es u2 =
      (.error (unsupportedMsg httpsprovider.schemeName u2), []) ∧
    s3provider.Retrieve e3 u3 =
      (.error (unsupportedMsg s3provider.schemeName u3), []) := by
  refine ⟨?_, ?_, ?_⟩
  · simp [httpprovider.Retrieve, h1]
  · simp [httpsprovider.Retrieve, h2]
  · simp [s3provider.Retrieve, h3]

/-- C1 witness: a `"foo://"` URI is rejected by all three providers with an
empty transport trace. -/
theorem C1_witness :
    httpprovider.Retrieve (httpEnvStatus 200) "foo://x" =
      (.error (unsupportedMsg httpprovider.schemeName "foo://x"), false) ∧
    httpsprovider.Retrieve (httpsEnvTest true true) "foo://x" =
      (.error (unsupportedMsg httpsprovider.schemeName "foo://x"), []) ∧
    s3provider.Retrieve (s3EnvTest "A" "B") "foo://x" =
      (.error (unsupportedMsg s3provider.schemeName "foo://x"), []) :=
  C1_unsupported_scheme_no_fetch (httpEnvStatus 200) (httpsEnvTest true true)
    (s3EnvTest "A" "B") "foo://x" "foo://x" "foo://x"
    (by decide) (by decide) (by decide)

/-- C4: the http provider's `Retrieve` never inspects the response status
code; a GET answering `404` with a decodable body is accepted as a
successful retrieval.  The specification adopts "status in [200,399] is
success, 4xx/5xx is a classified fetch failure" as the intended contract,
which this evaluation refutes for the code as written. -/
theorem C4_http_accepts_status_404 :
    httpprovider.Retrieve (httpEnvStatus 404) "http://config.example/otel.yaml" =
      (.ok (), true) ∧ 400 ≤ 404 ∧ 404 ≤ 599 := by
  exact ⟨by decide, by decide, by decide⟩

/-- C6: with the `"s3:"` prefix present but either credential environment
variable empty, the s3 provider's `Retrieve` returns the auth-configuration
error with an empty trace: no SDK configuration load, no HeadObject, no
download. -/
theorem C6_s3_missing_credentials {C B V : Type} (env : s3provider.Env C B V)
    (uri : String)
    (hpre : goHasPrefix uri (s3provider.schemeName ++ ":") = true)
    (hcred : env.accessKeyID = "" ∨ env.secretAccessKey = "") :
    s3provider.Retrieve env uri =
      (.error "unable to fetch access keys for S3 Auth", []) := by
  simp only [s3provider.Retrieve, hpre]
  rw [if_neg (by simp), if_pos hcred]

/-- C6 witness: empty `AWS_SECRET_ACCESS_KEY` on a well-formed s3 URI. -/
theorem C6_witness :
    s3provider.Retrieve (s3EnvTest "AKIAEXAMPLE" "") "s3://b.s3.r.amazonaws.com/k" =
      (.error "unable to fetch access keys for S3 Auth", []) :=
  C6_s3_missing_credentials (s3EnvTest "AKIAEXAMPLE" "") "s3://b.s3.r.amazonaws.com/k"
    (by decide) (Or.inr rfl)

/-- C10: in the s3 provider the credential-presence check precedes URI
decomposition: under the `"s3:"` prefix, missing credentials always produce
the auth-configuration error (even for structurally malformed URIs, since
`S3URISplit` is never consulted), and the malformed-URI error can only be
observed when both credential variables are non-empty. -/
theorem C10_s3_cred_check_before_parse {C B V : Type} (env : s3provider.Env C B V)
    (uri : String)
    (hpre : goHasPrefix uri (s3provider.schemeName ++ ":") = true) :
    ((env.accessKeyID = "" ∨ env.secretAccessKey = "") →
      s3provider.Retrieve env uri =
        (.error "unable to fetch access keys for S3 Auth", [])) ∧
    ((s3provider.Retrieve env uri).1 =
        .error (goQuote uri ++ " uri is not valid s3-url") →
      env.accessKeyID ≠ "" ∧ env.secretAccessKey ≠ "") := by
  constructor
  · intro hcred
    simp only [s3provider.Retrieve, hpre]
    rw [if_neg (by simp), if_pos hcred]
  · intro hres
    by_cases hcred : env.accessKeyID = "" ∨ env.secretAccessKey = ""
    · exfalso
      have hr : s3provider.Retrieve env uri =
          (.error "unable to fetch access keys for S3 Auth", []) := by
        simp only [s3provider.Retrieve, hpre]
        rw [if_neg (by simp), if_pos hcred]
      rw [hr] at hres
      have hmsg := Except.error.inj hres
      have hd := congrArg String.data hmsg
      rw [String.data_append,
        show (goQuote uri).data = '"' :: (uri.data.flatMap goEscapeChar ++ ['"'])
          from rfl] at hd
      simp at hd
    · push_neg at hcred
      exact hcred

/-- C10 witness: with both credentials empty and a structurally malformed
`"s3:"` URI, the error is the auth-configuration error, not the
malformed-URI error. -/
theorem C10_witness :
    s3provider.Retrieve (s3EnvTest "" "") "s3://not-a-valid-s3-url" =
      (.error "unable to fetch access keys for S3 Auth", []) :=
  (C10_s3_cred_check_before_parse (s3EnvTest "" "") "s3://not-a-valid-s3-url"
    (by decide)).1 (Or.inl rfl)

/-- C5: for the https provider, if reading the `SSL_CERT_FILE` CA file
fails (which subsumes an empty path — reading `""` fails at the OS level)
or its contents cannot be added to the pool as PEM, `Retrieve` returns an
error with an empty transport trace (no network call); moreover every GET
the provider ever performs uses a TLS configuration with
`InsecureSkipVerify = false` whose root pool is exactly the system pool
with the configured CA appended — never an unauthenticated fallback. -/
theorem C5_https_ca_failure_no_fetch {P B V : Type} (env : httpsprovider.Env P B V)
    (uri : String) :
    (((∃ e, env.readFile env.sslCertFile = .error e) ∨
        (∀ pool crt, env.readFile env.sslCertFile = .ok crt →
          env.appendCertsFromPEM pool crt = none)) →
      (∃ m, (httpsprovider.Retrieve env uri).1 = .error m) ∧
        (httpsprovider.Retrieve env uri).2 = []) ∧
    (∀ conf ∈ (httpsprovider.Retrieve env uri).2,
      conf.insecureSkipVerify = false ∧
      ∃ pool crt, env.systemCertPool = .ok pool ∧
        env.readFile env.sslCertFile = .ok crt ∧
        env.appendCertsFromPEM pool crt = some conf.rootCAs) := by
  cases hpre : goHasPrefix uri (httpsprovider.schemeName ++ "://") with
  | false =>
    have hres : httpsprovider.Retrieve env uri =
        (.error (unsupportedMsg httpsprovider.schemeName uri), []) := by
      simp [httpsprovider.Retrieve, hpre]
    rw [hres]
    exact ⟨fun _ => ⟨⟨_, rfl⟩, rfl⟩, fun conf hconf => absurd hconf (by simp)⟩
  | true =>
    cases hpool : env.systemCertPool with
    | error e0 =>
      have hres : httpsprovider.Retrieve env uri =
          (.error "unable to create a cert pool", []) := by
        simp [httpsprovider.Retrieve, hpre, hpool]
      rw [hres]
      exact ⟨fun _ => ⟨⟨_, rfl⟩, rfl⟩, fun conf hconf => absurd hconf (by simp)⟩
    | ok pool =>
      cases hread : env.readFile env.sslCertFile with
      | error e0 =>
        have hres : httpsprovider.Retrieve env uri =
            (.error ("unable to read CA from uri " ++ goQuote env.sslCertFile), []) := by
          simp [httpsprovider.Retrieve, hpre, hpool, hread]
        rw [hres]
        exact ⟨fun _ => ⟨⟨_, rfl⟩, rfl⟩, fun conf hconf => absurd hconf (by simp)⟩
      | ok crt =>
        cases happ : env.appendCertsFromPEM pool crt with
        | none =>
          have hres : httpsprovider.Retrieve env uri =
              (.error ("unable to add CA from uri " ++ goQuote env.sslCertFile ++
                " into the cert pool"), []) := by
            simp [httpsprovider.Retrieve, hpre, hpool, hread, happ]
          rw [hres]
          exact ⟨fun _ => ⟨⟨_, rfl⟩, rfl⟩, fun conf hconf => absurd hconf (by simp)⟩
        | some pool2 =>
          constructor
          · intro hca
            exfalso
            rcases hca with ⟨e0, he⟩ | hall
            · exact absurd he (by simp)
            · have := hall pool crt rfl
              rw [happ] at this
              exact absurd this (by simp)
          · intro conf hconf
            have hmem : conf = (⟨false, pool2⟩ : httpsprovider.TLSConfig P) := by
              cases hget : env.get uri ⟨false, pool2⟩ with
              | error e0 =>
                have hres : (httpsprovider.Retrieve env uri).2 = [⟨false, pool2⟩] := by
                  simp [httpsprovider.Retrieve, hpre, hpool, hread, happ, hget]
                rw [hres] at hconf
                simpa using hconf
              | ok resp =>
                cases hbody : resp.readBody with
                | error e0 =>
                  have hres : (httpsprovider.Retrieve env uri).2 = [⟨false, pool2⟩] := by
                    simp [httpsprovider.Retrieve, hpre, hpool, hread, happ, hget, hbody]
                  rw [hres] at hconf
                  simpa using hconf
                | ok body =>
                  have hres : (httpsprovider.Retrieve env uri).2 = [⟨false, pool2⟩] := by
                    simp [httpsprovider.Retrieve, hpre, hpool, hread, happ, hget, hbody]
                  rw [hres] at hconf
                  simpa using hconf
            subst hmem
            exact ⟨rfl, pool, crt, rfl, rfl, happ⟩

/-- C5 witness: an unreadable CA file yields an error before any GET. -/
theorem C5_witness :
    (∃ m, (httpsprovider.Retrieve (httpsEnvTest false true)
        "https://cfg.example/otel.yaml").1 = .error m) ∧
    (httpsprovider.Retrieve (httpsEnvTest false true)
        "https://cfg.example/otel.yaml").2 = [] :=
  (C5_https_ca_failure_no_fetch (httpsEnvTest false true)
    "https://cfg.example/otel.yaml").1 (Or.inl ⟨"open failed", by decide⟩)

/-- C9 counterexample: with the `"s3:"` prefix present and credentials
absent, `Retrieve` returns a non-nil error whose message — the fixed string
`"unable to fetch access keys for S3 Auth"` — does not contain the
offending URI, refuting «every error message contains the URI». -/
theorem C9_counterexample :
    s3provider.Retrieve (s3EnvTest "" "") "s3://b.s3.r.amazonaws.com/k" =
      (.error "unable to fetch access keys for S3 Auth", []) ∧
    strContains "unable to fetch access keys for S3 Auth"
      "s3://b.s3.r.amazonaws.com/k" = false :=
  ⟨by decide, by decide⟩

theorem strContains_of_eq_around_quote (msg pre suf arg : String)
    (hmsg : msg = pre ++ goQuote arg ++ suf) (hplain : plainString arg = true) :
    strContains msg arg = true := by
  rw [hmsg]
  exact strContains_around_quote pre suf arg hplain

/-- C9 (amended): the unsupported-scheme messages of all three providers,
the malformed-URI and S3-download messages, and the https GET-failure
message do contain the offending URI; the auth-configuration and
SDK-configuration messages (and the https cert-pool message) are fixed
strings that never contain it; the CA-read message carries the CA file
path instead of the URI, and the HeadObject message carries the quoted
bucket, key and region instead of the URI.  Stated for strings of plain
printable characters, which `%q` quotes verbatim. -/
theorem C9_amended_error_uri_reporting {C B V P : Type}
    (env : s3provider.Env C B V) (env2 : httpsprovider.Env P B V)
    (env3 : httpprovider.Env B V)
    (uri u2 u3 : String)
    (hplain : plainString uri = true) (hplain2 : plainString u2 = true)
    (hplain3 : plainString u3 = true)
    (hplainca : plainString env2.sslCertFile = true) :
    (goHasPrefix uri (s3provider.schemeName ++ ":") = false →
      (s3provider.Retrieve env uri).1 =
        .error (unsupportedMsg s3provider.schemeName uri) ∧
      strContains (unsupportedMsg s3provider.schemeName uri) uri = true) ∧
    (goHasPrefix uri (s3provider.schemeName ++ ":") = true →
      strContains "unable to fetch access keys for S3 Auth" uri = false ∧
      strContains "AWS SDK's default configuration fail to load" uri = false) ∧
    (goHasPrefix uri (s3provider.schemeName ++ ":") = true →
      env.accessKeyID ≠ "" → env.secretAccessKey ≠ "" →
      s3provider.S3URISplit uri = .error "invalid s3-uri" →
      (s3provider.Retrieve env uri).1 =
        .error (goQuote uri ++ " uri is not valid s3-url") ∧
      strContains (goQuote uri ++ " uri is not valid s3-url") uri = true) ∧
    (∀ bu re ke cfg n, goHasPrefix uri (s3provider.schemeName ++ ":") = true →
      env.accessKeyID ≠ "" → env.secretAccessKey ≠ "" →
      s3provider.S3URISplit uri = .ok (bu, re, ke) →
      env.loadDefaultConfig re = .ok cfg →
      env.headObject cfg bu ke = .ok n →
      (∃ e, env.download cfg bu ke = .error e) →
      (s3provider.Retrieve env uri).1 =
        .error ("file in S3 failed to fetch : uri " ++ goQuote uri) ∧
      strContains ("file in S3 failed to fetch : uri " ++ goQuote uri) uri = true) ∧
    (goHasPrefix u2 (httpsprovider.schemeName ++ "://") = true →
      strContains "unable to create a cert pool" u2 = false) ∧
    (∀ pool crt pool2, goHasPrefix u2 (httpsprovider.schemeName ++ "://") = true →
      env2.systemCertPool = .ok pool →
      env2.readFile env2.sslCertFile = .ok crt →
      env2.appendCertsFromPEM pool crt = some pool2 →
      (∃ e, env2.get u2 ⟨false, pool2⟩ = .error e) →
      (httpsprovider.Retrieve env2 u2).1 =
        .error ("unable to download the file via HTTPS GET for uri " ++ goQuote u2) ∧
      strContains ("unable to download the file via HTTPS GET for uri " ++
        goQuote u2) u2 = true) ∧
    (goHasPrefix u3 (httpprovider.schemeName ++ "://") = false →
      (httpprovider.Retrieve env3 u3).1 =
        .error (unsupportedMsg httpprovider.schemeName u3) ∧
      strContains (unsupportedMsg httpprovider.schemeName u3) u3 = true) ∧
    (goHasPrefix u2 (httpsprovider.schemeName ++ "://") = false →
      (httpsprovider.Retrieve env2 u2).1 =
        .error (unsupportedMsg httpsprovider.schemeName u2) ∧
      strContains (unsupportedMsg httpsprovider.schemeName u2) u2 = true) ∧
    (∀ pool e0, goHasPrefix u2 (httpsprovider.schemeName ++ "://") = true →
      env2.systemCertPool = .ok pool →
      env2.readFile env2.sslCertFile = .error e0 →
      (httpsprovider.Retrieve env2 u2).1 =
        .error ("unable to read CA from uri " ++ goQuote env2.sslCertFile) ∧
      strContains ("unable to read CA from uri " ++ goQuote env2.sslCertFile)
        env2.sslCertFile = true) ∧
    (∀ bu re ke cfg, goHasPrefix uri (s3provider.schemeName ++ ":") = true →
      env.accessKeyID ≠ "" → env.secretAccessKey ≠ "" →
      s3provider.S3URISplit uri = .ok (bu, re, ke) →
      env.loadDefaultConfig re = .ok cfg →
      (∃ e, env.headObject cfg bu ke = .error e) →
      plainString bu = true → plainString ke = true → plainString re = true →
      (s3provider.Retrieve env uri).1 =
        .error ("HeadObject failed to fetch : Bucket " ++ goQuote bu ++
          ", Key " ++ goQuote ke ++ ", Region " ++ goQuote re) ∧
      strContains ("HeadObject failed to fetch : Bucket " ++ goQuote bu ++
        ", Key " ++ goQuote ke ++ ", Region " ++ goQuote re) bu = true ∧
      strContains ("HeadObject failed to fetch : Bucket " ++ goQuote bu ++
        ", Key " ++ goQuote ke ++ ", Region " ++ goQuote re) ke = true ∧
      strContains ("HeadObject failed to fetch : Bucket " ++ goQuote bu ++
        ", Key " ++ goQuote ke ++ ", Region " ++ goQuote re) re = true) := by
  have hcolon : goHasPrefix uri (s3provider.schemeName ++ ":") = true →
      (':' : Char) ∈ uri.data := fun h =>
    mem_of_goHasPrefix h (by decide)
  have hcolon2 : goHasPrefix u2 (httpsprovider.schemeName ++ "://") = true →
      (':' : Char) ∈ u2.data := fun h =>
    mem_of_goHasPrefix h (by decide)
  refine ⟨?_, ?_, ?_, ?_, ?_, ?_, ?_, ?_, ?_, ?_⟩
  · intro h
    constructor
    · simp [s3provider.Retrieve, h]
    · have hc := strContains_around_quote ""
        (" uri is not supported by " ++ goQuote s3provider.schemeName ++ " provider")
        uri hplain
      have he : "" ++ goQuote uri ++
          (" uri is not supported by " ++ goQuote s3provider.schemeName ++ " provider") =
          unsupportedMsg s3provider.schemeName uri := by
        apply str_eq_of_data_eq
        simp [unsupportedMsg, String.data_append, List.append_assoc,
          show ("" : String).data = [] from rfl]
      rw [he] at hc
      exact hc
  · intro h
    exact ⟨strContains_eq_false_of_not_mem (by decide) (hcolon h),
      strContains_eq_false_of_not_mem (by decide) (hcolon h)⟩
  · intro h hak hsk hsplit
    constructor
    · simp only [s3provider.Retrieve, h]
      rw [if_neg (by simp), if_neg (by rintro (he | he) <;> [exact hak he; exact hsk he]),
        hsplit]
    · have hc := strContains_around_quote "" " uri is not valid s3-url" uri hplain
      have he : "" ++ goQuote uri ++ " uri is not valid s3-url" =
          goQuote uri ++ " uri is not valid s3-url" := by
        apply str_eq_of_data_eq
        simp [String.data_append, show ("" : String).data = [] from rfl]
      rw [he] at hc
      exact hc
  · intro bu re ke cfg n h hak hsk hsplit hload hhead hdl
    obtain ⟨e0, he0⟩ := hdl
    constructor
    · simp only [s3provider.Retrieve, h]
      rw [if_neg (by simp), if_neg (by rintro (he | he) <;> [exact hak he; exact hsk he]),
        hsplit]
      simp [hload, hhead, he0]
    · have hc := strContains_around_quote "file in S3 failed to fetch : uri " "" uri hplain
      have he : "file in S3 failed to fetch : uri " ++ goQuote uri ++ "" =
          "file in S3 failed to fetch : uri " ++ goQuote uri := by
        apply str_eq_of_data_eq
        simp [String.data_append, show ("" : String).data = [] from rfl]
      rw [he] at hc
      exact hc
  · intro h
    exact strContains_eq_false_of_not_mem (by decide) (hcolon2 h)
  · intro pool crt pool2 h hpool hread happ hget
    obtain ⟨e0, he0⟩ := hget
    constructor
    · simp [httpsprovider.Retrieve, h, hpool, hread, happ, he0]
    · have hc := strContains_around_quote "unable to download the file via HTTPS GET for uri "
        "" u2 hplain2
      have he : "unable to download the file via HTTPS GET for uri " ++ goQuote u2 ++ "" =
          "unable to download the file via HTTPS GET for uri " ++ goQuote u2 := by
        apply str_eq_of_data_eq
        simp [String.data_append, show ("" : String).data = [] from rfl]
      rw [he] at hc
      exact hc
  · intro h
    refine ⟨by simp [httpprovider.Retrieve, h], ?_⟩
    exact strContains_of_eq_around_quote (unsupportedMsg httpprovider.schemeName u3) ""
      (" uri is not supported by " ++ goQuote httpprovider.schemeName ++ " provider") u3
      (by
        apply str_eq_of_data_eq
        simp [unsupportedMsg, String.data_append, List.append_assoc,
          show ("" : String).data = [] from rfl]) hplain3
  · intro h
    refine ⟨by simp [httpsprovider.Retrieve, h], ?_⟩
    exact strContains_of_eq_around_quote (unsupportedMsg httpsprovider.schemeName u2) ""
      (" uri is not supported by " ++ goQuote httpsprovider.schemeName ++ " provider") u2
      (by
        apply str_eq_of_data_eq
        simp [unsupportedMsg, String.data_append, List.append_assoc,
          show ("" : String).data = [] from rfl]) hplain2
  · intro pool e0 h hpool hread
    constructor
    · simp [httpsprovider.Retrieve, h, hpool, hread]
    · exact strContains_of_eq_around_quote
        ("unable to read CA from uri " ++ goQuote env2.sslCertFile)
        "unable to read CA from uri " "" env2.sslCertFile
        (by
          apply str_eq_of_data_eq
          simp [String.data_append, show ("" : String).data = [] from rfl]) hplainca
  · intro bu re ke cfg h hak hsk hsplit hload hhead hplainbu hplainke hplainre
    obtain ⟨e0, he0⟩ := hhead
    refine ⟨?_, ?_, ?_, ?_⟩
    · simp only [s3provider.Retrieve, h]
      rw [if_neg (by simp), if_neg (by rintro (he | he) <;> [exact hak he; exact hsk he]),
        hsplit]
      simp [hload, he0]
    · exact strContains_of_eq_around_quote
        ("HeadObject failed to fetch : Bucket " ++ goQuote bu ++
          ", Key " ++ goQuote ke ++ ", Region " ++ goQuote re)
        "HeadObject failed to fetch : Bucket "
        (", Key " ++ goQuote ke ++ ", Region " ++ goQuote re) bu
        (by
          apply str_eq_of_data_eq
          simp [String.data_append, List.append_assoc]) hplainbu
    · exact strContains_of_eq_around_quote
        ("HeadObject failed to fetch : Bucket " ++ goQuote bu ++
          ", Key " ++ goQuote ke ++ ", Region " ++ goQuote re)
        ("HeadObject failed to fetch : Bucket " ++ goQuote bu ++ ", Key ")
        (", Region " ++ goQuote re) ke
        (by
          apply str_eq_of_data_eq
          simp [String.data_append, List.append_assoc]) hplainke
    · exact strContains_of_eq_around_quote
        ("HeadObject failed to fetch : Bucket " ++ goQuote bu ++
          ", Key " ++ goQuote ke ++ ", Region " ++ goQuote re)
        ("HeadObject failed to fetch : Bucket " ++ goQuote bu ++
          ", Key " ++ goQuote ke ++ ", Region ") "" re
        (by
          apply str_eq_of_data_eq
          simp [String.data_append, List.append_assoc,
            show ("" : String).data = [] from rfl]) hplainre

/-- C9 witness: the auth-configuration message does not contain a
well-formed s3 URI; the malformed-URI message does contain the offending
URI; and the CA-read message carries (contains) the CA file path. -/
theorem C9_witness :
    strContains "unable to fetch access keys for S3 Auth"
      "s3://b.s3.r.amazonaws.com/k" = false ∧
    ((s3provider.Retrieve (s3EnvTest "A" "B") "s3://oops").1 =
        .error (goQuote "s3://oops" ++ " uri is not valid s3-url") ∧
      strContains (goQuote "s3://oops" ++ " uri is not valid s3-url") "s3://oops" = true) ∧
    ((httpsprovider.Retrieve (httpsEnvTest false true) "https://x").1 =
        .error ("unable to read CA from uri " ++ goQuote "/etc/ssl/ca.pem") ∧
      strContains ("unable to read CA from uri " ++ goQuote "/etc/ssl/ca.pem")
        "/etc/ssl/ca.pem" = true) := by
  refine ⟨?_, ?_, ?_⟩
  · exact ((C9_amended_error_uri_reporting (s3EnvTest "" "x") (httpsEnvTest true true)
      (httpEnvStatus 200) "s3://b.s3.r.amazonaws.com/k" "https://x" "http://x"
      (by decide) (by decide) (by decide) (by decide)).2.1
      (by decide)).1
  · exact (C9_amended_error_uri_reporting (s3EnvTest "A" "B") (httpsEnvTest true true)
      (httpEnvStatus 200) "s3://oops" "https://x" "http://x"
      (by decide) (by decide) (by decide) (by decide)).2.2.1
      (by decide) (by decide) (by decide) (by decide)
  · exact (C9_amended_error_uri_reporting (s3EnvTest "A" "B") (httpsEnvTest false true)
      (httpEnvStatus 200) "s3://oops" "https://x" "http://x"
      (by decide) (by decide) (by decide) (by decide)).2.2.2.2.2.2.2.2.1
      () "open failed" (by decide) (by decide) (by decide)

end OtelConf
